import Mathlib

/-!
Shallow embedding of `src/main.py` (InterviewMate, a terminal interview-practice
assistant).  External collaborators (microphone, speech recognizer, the language
model) are modelled as scripted inputs / oracle functions; the control flow,
string formatting and state updates are translated directly from the source.
-/

namespace InterviewMate

/-- Outcome of one microphone capture, as seen by `recognize_google` inside
`listen` (src/main.py lines 100-110): recognized text, or one of the two
exceptions the source catches. -/
inductive ListenEvent where
  | Recognized (text : String)
  | Unrecognized
  | ServiceError
deriving DecidableEq, Repr

/-- The two exception types caught in `listen`. -/
inductive SrError where
  | UnknownValueError
  | RequestError
deriving DecidableEq, Repr

/-- `self.recognizer.recognize_google(audio)`: returns the recognized text or
raises `sr.UnknownValueError` / `sr.RequestError`. -/
def recognize_google : ListenEvent → Except SrError String
  | .Recognized t => .ok t
  | .Unrecognized => .error .UnknownValueError
  | .ServiceError => .error .RequestError

/-- `listen` (src/main.py lines 93-110): calls `recognize_google` inside
`try/except`, returning the text on success and `None` (here `none`) when
either `UnknownValueError` or `RequestError` is raised.  The result is wrapped
in `Except SrError` to record whether any exception escapes the handler. -/
def listen (e : ListenEvent) : Except SrError (Option String) :=
  match recognize_google e with
  | .ok t => .ok (some t)
  | .error .UnknownValueError => .ok none
  | .error .RequestError => .ok none

/-- `" ".join(parts)` / `"\n".join(lines)`: Python `str.join` with a fixed
separator. -/
def pyJoin (sep : String) : List String → String
  | [] => ""
  | [a] => a
  | a :: rest => a ++ sep ++ pyJoin sep rest

/-- One record of the voice-collection loop body (src/main.py lines 120-128):
the event consumed, the silence counter after the update, and whether the
"Are you finished..." confirmation prompt was spoken on this iteration. -/
structure VoiceStep where
  event : ListenEvent
  silenceAfter : Nat
  prompted : Bool
deriving DecidableEq, Repr

/-- The `while silence_count < max_silence` loop of `get_user_answer` with
`use_voice=True` (src/main.py lines 116-129), run over a scripted list of
listen events.  The branch test `if user_input:` (line 122) is Python
truthiness: `None` and the empty string are both falsy, so a recognized
empty string takes the silence branch like a non-recognition; only a
recognized non-empty text is appended and resets the counter.  Returns
`none` if the script is exhausted before the loop condition fails (the real
loop would block on the microphone); otherwise the accumulated
`answer_parts`, the number of `listen()` calls made, and the per-iteration
trace.  An uncaught `SrError` from `listen` would propagate (outer
`Except`). -/
def voiceLoop (max_silence : Nat) :
    List ListenEvent → List String → Nat →
    Except SrError (Option (List String × Nat × List VoiceStep))
  | events, answer_parts, silence_count =>
    if silence_count < max_silence then
      match events with
      | [] => .ok none
      | e :: rest =>
        match listen e with
        | .error err => .error err
        | .ok user_input =>
          match user_input with
          | some text =>
            if text == "" then
              let silence' := silence_count + 1
              let prompt := silence' == 1
              (voiceLoop max_silence rest answer_parts silence').map
                (Option.map (fun r =>
                  (r.1, r.2.1 + 1, ⟨e, silence', prompt⟩ :: r.2.2)))
            else
              (voiceLoop max_silence rest (answer_parts ++ [text]) 0).map
                (Option.map (fun r =>
                  (r.1, r.2.1 + 1, ⟨e, 0, false⟩ :: r.2.2)))
          | none =>
            let silence' := silence_count + 1
            let prompt := silence' == 1
            (voiceLoop max_silence rest answer_parts silence').map
              (Option.map (fun r =>
                (r.1, r.2.1 + 1, ⟨e, silence', prompt⟩ :: r.2.2)))
    else
      .ok (some (answer_parts, 0, []))

/-- `get_user_answer(use_voice=True)` (src/main.py lines 114-130) over a
scripted event list: run the silence-counting loop with `max_silence = 3`,
then `" ".join(answer_parts) if answer_parts else "No answer provided."`. -/
def get_user_answer_voice (events : List ListenEvent) :
    Except SrError (Option String) :=
  (voiceLoop 3 events [] 0).map (Option.map (fun r =>
    if r.1 ≠ [] then pyJoin " " r.1 else "No answer provided."))

/-- Number of `listen()` calls made by the voice loop on a scripted event
list (none when the script is exhausted or an error escapes). -/
def voiceCalls (events : List ListenEvent) : Option Nat :=
  match voiceLoop 3 events [] 0 with
  | .ok (some r) => some r.2.1
  | _ => none

/-- Python `str.strip()` restricted to the ASCII whitespace characters Lean's
`Char.isWhitespace` recognizes: drop whitespace from both ends. -/
def pyStrip (s : String) : String :=
  ⟨((s.data.dropWhile Char.isWhitespace).reverse.dropWhile
      Char.isWhitespace).reverse⟩

/-- The text-input loop of `get_user_answer` with `use_voice=False`
(src/main.py lines 134-143), over a scripted list of input lines: skip blank
lines (blank after `strip`) while `answer_lines` is empty, stop at the first
blank line once it is non-empty, append non-blank lines verbatim.  `none`
when the script is exhausted (the real loop would block on `input()`). -/
def textLoop : List String → List String → Option (List String)
  | [], _ => none
  | line :: rest, answer_lines =>
    if pyStrip line = "" then
      if answer_lines = [] then textLoop rest answer_lines
      else some answer_lines
    else textLoop rest (answer_lines ++ [line])

/-- `get_user_answer(use_voice=False)` (src/main.py lines 131-143):
`"\n".join(answer_lines)` after the line-collection loop. -/
def get_user_answer_text (lines : List String) : Option String :=
  (textLoop lines []).map (pyJoin "\n")

/-- `line.strip() == ""` (src/main.py line 137): a line is blank when it
strips to the empty string. -/
def isBlankLine (l : String) : Bool := pyStrip l == ""

/-- The `question_template` literal (src/main.py lines 12-31) as a function
of the three strings substituted for its placeholders (job_topic twice, then
question_number, then previous_questions).  The triple-quoted Python literal
starts and ends with a newline. -/
def question_template_general (job_topic_s : String) (question_number_s : String)
    (previous_questions_s : String) : String :=
  "\nYou are an AI interview assistant named \"InterviewMate\". You are an expert interviewer for all professional fields.\n\nThe user wants to practice for an interview in the field of: "
  ++ job_topic_s
  ++ "\n\nGenerate a challenging and realistic interview question about "
  ++ job_topic_s
  ++ ". This should be question #"
  ++ question_number_s
  ++ " in the practice session.\n\nMake sure the question is:\n- Technical and specific to the job topic\n- Similar to what might be asked in a real interview\n- Challenging but answerable\n- Clear and concise\n\nPrevious questions asked in this session:\n"
  ++ previous_questions_s
  ++ "\n\nIMPORTANT: Do NOT repeat any of the previous questions. Generate a completely new and different question.\n\nReturn ONLY the interview question without any introductory text or explanations.\n"

/-- `question_template` rendered with the intended per-field values:
`job_topic`, the stringified `question_number`, and `previous_questions`.
This is what the placeholders are written for; the chain as wired formats
every placeholder with the whole input dict instead — see
`question_chain_prompt`. -/
def question_template (job_topic : String) (question_number : Nat)
    (previous_questions : String) : String :=
  question_template_general job_topic (toString question_number)
    previous_questions

/-- `feedback_template` (src/main.py lines 33-49) with the intended
per-field substitution of `job_topic`, `question` and `answer` applied.
(The feedback chain's wiring substitutes the whole input dict for every
placeholder, exactly as the question chain does.) -/
def feedback_template (job_topic : String) (question : String)
    (answer : String) : String :=
  "\nYou are an AI interview assistant named \"InterviewMate\". You are an expert interviewer for all professional fields.\n\nYou are evaluating a candidate\x27s answer to an interview question about "
  ++ job_topic
  ++ ".\n\nQuestion: "
  ++ question
  ++ "\nCandidate\x27s Answer: "
  ++ answer
  ++ "\n\nProvide detailed feedback on the candidate\x27s answer. Include:\n1. Whether the answer is technically correct or incorrect\n2. Strengths of the answer\n3. Areas for improvement\n4. A model answer that would be considered excellent\n5. Any key points that were missed\n\nBe specific, constructive, and helpful. Your goal is to help the candidate improve their interview skills.\n"

/-- `prev_questions_formatted` (src/main.py line 179):
`"\n".join([f"- QUESTION" for q in previous_questions]) if previous_questions
else "None yet."`. -/
def formatPreviousQuestions (previous_questions : List String) : String :=
  if previous_questions ≠ [] then
    pyJoin "\n" (previous_questions.map (fun q => "- " ++ q))
  else "None yet."

/-- The per-field question prompt described by the specification: the
template rendered over the formatted previous-questions block.  This is the
rendering the template is written for; the program's chain never computes
this string — `question_chain_prompt` below is what is sent. -/
def render_question_prompt (job_topic : String) (question_number : Nat)
    (previous_questions : List String) : String :=
  question_template job_topic question_number
    (formatPreviousQuestions previous_questions)

/-- Escape one character as Python's repr of a single-quoted string does
(backslash, newline, carriage return, tab; the other characters appearing
in the prompts of the claims are printable ASCII and pass through). -/
def pyReprCharEsc (c : Char) : List Char :=
  if c = '\\' then ['\\', '\\']
  else if c = '\n' then ['\\', 'n']
  else if c = '\r' then ['\\', 'r']
  else if c = '\t' then ['\\', 't']
  else [c]

/-- Python `repr` of a string containing no quote characters and no
non-printable characters beyond newline, carriage return and tab:
single-quoted, with backslash escapes.  (Python switches quote style for a
string containing a single quote; no string handled by the claims does.) -/
def pyReprStr (s : String) : String :=
  ⟨'\x27' :: s.data.foldr (fun c acc => pyReprCharEsc c ++ acc) ['\x27']⟩

/-- `str()` of the dict passed to `question_chain.invoke` (src/main.py
lines 182-186): keys in insertion order, string values via repr, the
integer `question_number` unquoted. -/
def questionInputDictStr (job_topic : String) (question_number : Nat)
    (prev_questions_formatted : String) : String :=
  "\x7b\x27job_topic\x27: " ++ pyReprStr job_topic
  ++ ", \x27question_number\x27: " ++ toString question_number
  ++ ", \x27previous_questions\x27: " ++ pyReprStr prev_questions_formatted
  ++ "\x7d"

/-- The prompt string the program actually sends for a question
(src/main.py lines 73-78 with 179-186): the chain's dict of
`RunnablePassthrough()`s coerces to a `RunnableParallel` that hands the
WHOLE input dict to every field, so the `PromptTemplate` formats each of
the three placeholders with `str()` of that dict. -/
def question_chain_prompt (job_topic : String) (question_number : Nat)
    (previous_questions : List String) : String :=
  let d := questionInputDictStr job_topic question_number
    (formatPreviousQuestions previous_questions)
  question_template_general d d d

/-- Split a rendered prompt into its lines (separator `\n`). -/
def promptLines (s : String) : List String :=
  (s.data.splitOn '\n').map (fun cs => ⟨cs⟩)

/-- `needle` is a prefix of `hay` (over character lists). -/
def startsWithList : List Char → List Char → Bool
  | [], _ => true
  | _ :: _, [] => false
  | c :: cs, h :: hs => c == h && startsWithList cs hs

/-- `needle` occurs contiguously inside `hay` (over character lists). -/
def infixOfList (needle : List Char) : List Char → Bool
  | [] => needle.isEmpty
  | h :: hs => startsWithList needle (h :: hs) || infixOfList needle hs

/-- A bullet line of a previous-questions block: a line starting `- `. -/
def isBulletLine (l : String) : Bool := startsWithList ['-', ' '] l.data

/-- `needle` occurs as a contiguous substring of `hay`. -/
def containsSubstr (hay needle : String) : Bool :=
  infixOfList needle.data hay.data

/-- Python `str.lower()` restricted to ASCII: lower-case every character. -/
def pyLower (s : String) : String := ⟨s.data.map Char.toLower⟩

/-- The mutable session state of `run_interview_session` relevant to question
generation (src/main.py lines 170-172, 188, 208): `question_number` and
`previous_questions`. -/
structure SessionState where
  question_number : Nat
  previous_questions : List String
deriving DecidableEq, Repr

/-- One iteration of the `for i in range(questions_per_round)` body
(src/main.py lines 175-208), with the language model as an oracle from
prompt text to completion: format the previous questions, invoke the
question chain, append the returned question, and (after the answer is
collected and the feedback chain invoked — neither reads nor writes the two
fields modelled here) increment `question_number`. -/
def questionStep (llm : String → String) (job_topic : String)
    (s : SessionState) : SessionState :=
  let prev_questions_formatted := formatPreviousQuestions s.previous_questions
  let interview_question :=
    llm (question_template job_topic s.question_number prev_questions_formatted)
  { question_number := s.question_number + 1
    previous_questions := s.previous_questions ++ [interview_question] }

/-- A full round: `for i in range(questions_per_round)` (src/main.py
line 175), i.e. `questions_per_round` successive question steps. -/
def runRound (llm : String → String) (job_topic : String) :
    Nat → SessionState → SessionState
  | 0, s => s
  | k + 1, s => runRound llm job_topic k (questionStep llm job_topic s)

/-- The questions generated during a round, in generation order. -/
def roundQuestions (llm : String → String) (job_topic : String) :
    Nat → SessionState → List String
  | 0, _ => []
  | k + 1, s =>
    llm (question_template job_topic s.question_number
        (formatPreviousQuestions s.previous_questions))
      :: roundQuestions llm job_topic k (questionStep llm job_topic s)

/-- The question numbers used (passed to the question template) during a
round, in order. -/
def roundNumbers (llm : String → String) (job_topic : String) :
    Nat → SessionState → List Nat
  | 0, _ => []
  | k + 1, s =>
    s.question_number :: roundNumbers llm job_topic k (questionStep llm job_topic s)

/-- `use_voice = voice_preference in ["yes", "y"]` after
`voice_preference = input(...).lower()` (src/main.py lines 155-156). -/
def useVoiceChoice (voice_preference : String) : Bool :=
  ["yes", "y"].contains (pyLower voice_preference)

/-- `continue_practice = continue_input.lower() in ["yes", "y"]`
(src/main.py line 213). -/
def continueChoice (continue_input : String) : Bool :=
  ["yes", "y"].contains (pyLower continue_input)

/-- Digit string to number, as `int()` does once the text is validated. -/
def digitsToNat (ds : List Char) : Nat :=
  ds.foldl (fun acc c => acc * 10 + (c.toNat - '0'.toNat)) 0

/-- Python `int(s)` restricted to ASCII decimal literals: strip surrounding
whitespace, allow one optional sign, then require a non-empty run of digits;
`none` models the `ValueError` raised on anything else. -/
def pyInt (s : String) : Option Int :=
  match (pyStrip s).data with
  | '-' :: ds =>
    if !ds.isEmpty && ds.all Char.isDigit then some (-(digitsToNat ds : Int))
    else none
  | '+' :: ds =>
    if !ds.isEmpty && ds.all Char.isDigit then some (digitsToNat ds : Int)
    else none
  | ds =>
    if !ds.isEmpty && ds.all Char.isDigit then some (digitsToNat ds : Int)
    else none

/-- The `while True` validation loop for `questions_per_round` (src/main.py
lines 160-168) over a scripted input list: a `ValueError` from `int()` or a
non-positive value re-asks (consuming the next input); the first positive
integer breaks the loop.  `none` when the script is exhausted (the real
loop would keep asking). -/
def askQuestionsPerRound : List String → Option Nat
  | [] => none
  | s :: rest =>
    match pyInt s with
    | none => askQuestionsPerRound rest
    | some q => if q > 0 then some q.toNat else askQuestionsPerRound rest

/-- The configuration collected by `run_interview_session` before the round
loop (src/main.py lines 149-168). -/
structure Config where
  job_topic : String
  use_voice : Bool
  questions_per_round : Nat
deriving DecidableEq, Repr

/-- The CONFIGURING phase (src/main.py lines 149-168) over one scripted
input list: first input is the job topic, second the voice preference, then
the validation loop consumes inputs until a positive integer arrives. -/
def configure : List String → Option Config
  | job_topic :: voice_preference :: rest =>
    (askQuestionsPerRound rest).map
      (fun q => ⟨job_topic, useVoiceChoice voice_preference, q⟩)
  | _ => none

/-- The `while continue_practice` loop (src/main.py lines 174-213) over a
scripted list of continuation answers: run a round, read the next answer,
continue on a match against yes/y, otherwise exit the loop.  Returns the
final state and the number of rounds run; `none` when the script is
exhausted while the loop would continue. -/
def sessionLoop (llm : String → String) (job_topic : String)
    (questions_per_round : Nat) :
    List String → SessionState → Option (SessionState × Nat)
  | continue_inputs, s =>
    let s' := runRound llm job_topic questions_per_round s
    match continue_inputs with
    | [] => none
    | c :: rest =>
      if continueChoice c then
        (sessionLoop llm job_topic questions_per_round rest s').map
          (fun r => (r.1, r.2 + 1))
      else some (s', 1)

/-- The closing announcement spoken after the round loop exits
(src/main.py line 215). -/
def closing_message : String :=
  "Thank you for using InterviewMate Practice System. Good luck with your interviews!"

/-- The round phase of `run_interview_session` end to end: the round loop
followed by the closing announcement, normal termination (`some`) exactly
when the loop exits. -/
def run_practice (llm : String → String) (job_topic : String)
    (questions_per_round : Nat) (continue_inputs : List String)
    (s : SessionState) : Option (SessionState × Nat × String) :=
  (sessionLoop llm job_topic questions_per_round continue_inputs s).map
    (fun r => (r.1, r.2, closing_message))

/-- Observation: the text recognized by an event, if any. -/
def recognizedText : ListenEvent → Option String
  | .Recognized t => some t
  | .Unrecognized => none
  | .ServiceError => none

/-- Observation: the text an event contributes to the answer under Python
truthiness of `if user_input:` — recognized and non-empty. -/
def truthyText : ListenEvent → Option String
  | .Recognized t => if t == "" then none else some t
  | .Unrecognized => none
  | .ServiceError => none

/-- The text strategy in the words of the specification, for comparison with
`get_user_answer_text`: ignore blank lines before the first non-blank line;
collection ends at the first blank line after content; the result is the
non-blank lines joined by newlines, in entry order. -/
def collect_text_answer_spec (lines : List String) : Option String :=
  let rest := lines.dropWhile isBlankLine
  if rest.any isBlankLine then
    some (pyJoin "\n" (rest.takeWhile (fun l => !isBlankLine l)))
  else none

/-! ### Lemmas about the voice-collection loop -/

lemma listen_eq (e : ListenEvent) : listen e = .ok (recognizedText e) := by
  cases e <;> rfl

lemma voiceLoop_stop {m : Nat} (events : List ListenEvent)
    (parts : List String) (silence : Nat) (h : ¬ silence < m) :
    voiceLoop m events parts silence = .ok (some (parts, 0, [])) := by
  rw [voiceLoop.eq_def]
  simp [h]

lemma voiceLoop_nil {m : Nat} (parts : List String) (silence : Nat)
    (h : silence < m) : voiceLoop m [] parts silence = .ok none := by
  rw [voiceLoop.eq_def]
  simp [h]

lemma voiceLoop_cons_rec {m : Nat} (e : ListenEvent) (rest : List ListenEvent)
    (parts : List String) (silence : Nat) (h : silence < m) (t : String)
    (he : truthyText e = some t) :
    voiceLoop m (e :: rest) parts silence =
      (voiceLoop m rest (parts ++ [t]) 0).map
        (Option.map fun r => (r.1, r.2.1 + 1, (⟨e, 0, false⟩ : VoiceStep) :: r.2.2)) := by
  cases e with
  | Recognized u =>
    by_cases hu : u == ""
    · simp [truthyText, hu] at he
    · simp only [truthyText, hu, Bool.false_eq_true, if_false,
        Option.some.injEq] at he
      subst he
      rw [voiceLoop.eq_def]
      simp [h, listen, recognize_google, hu]
  | Unrecognized => simp [truthyText] at he
  | ServiceError => simp [truthyText] at he

lemma voiceLoop_cons_none {m : Nat} (e : ListenEvent) (rest : List ListenEvent)
    (parts : List String) (silence : Nat) (h : silence < m)
    (he : truthyText e = none) :
    voiceLoop m (e :: rest) parts silence =
      (voiceLoop m rest parts (silence + 1)).map
        (Option.map fun r =>
          (r.1, r.2.1 + 1,
            (⟨e, silence + 1, silence + 1 == 1⟩ : VoiceStep) :: r.2.2)) := by
  cases e with
  | Recognized u =>
    have hu : (u == "") = true := by
      by_contra hne
      simp [truthyText, hne] at he
    rw [voiceLoop.eq_def]
    simp [h, listen, recognize_google, hu]
  | Unrecognized => rw [voiceLoop.eq_def]; simp [h, listen, recognize_google]
  | ServiceError => rw [voiceLoop.eq_def]; simp [h, listen, recognize_google]

lemma voiceLoop_ok {m : Nat} :
    ∀ (events : List ListenEvent) (parts : List String) (silence : Nat),
      ∃ r, voiceLoop m events parts silence = .ok r := by
  intro events
  induction events with
  | nil =>
    intro parts silence
    by_cases h : silence < m
    · exact ⟨none, voiceLoop_nil parts silence h⟩
    · exact ⟨some (parts, 0, []), voiceLoop_stop [] parts silence h⟩
  | cons e rest ih =>
    intro parts silence
    by_cases h : silence < m
    · cases he : truthyText e with
      | some t =>
        obtain ⟨r, hr⟩ := ih (parts ++ [t]) 0
        refine ⟨Option.map
          (fun r => (r.1, r.2.1 + 1, (⟨e, 0, false⟩ : VoiceStep) :: r.2.2)) r, ?_⟩
        rw [voiceLoop_cons_rec e rest parts silence h t he, hr]
        rfl
      | none =>
        obtain ⟨r, hr⟩ := ih parts (silence + 1)
        refine ⟨Option.map
          (fun r => (r.1, r.2.1 + 1,
            (⟨e, silence + 1, silence + 1 == 1⟩ : VoiceStep) :: r.2.2)) r, ?_⟩
        rw [voiceLoop_cons_none e rest parts silence h he, hr]
        rfl
    · exact ⟨some (parts, 0, []), voiceLoop_stop _ parts silence h⟩

lemma voiceLoop_some_spec {m : Nat} :
    ∀ (events : List ListenEvent) (parts0 : List String) (silence : Nat)
      (parts : List String) (calls : Nat) (trace : List VoiceStep),
      voiceLoop m events parts0 silence = .ok (some (parts, calls, trace)) →
      parts = parts0 ++ (events.take calls).filterMap truthyText ∧
      trace.map VoiceStep.event = events.take calls ∧
      ∀ st ∈ trace, (st.prompted = true ↔ st.silenceAfter = 1) := by
  intro events
  induction events with
  | nil =>
    intro parts0 silence parts calls trace h
    by_cases hs : silence < m
    · rw [voiceLoop_nil parts0 silence hs] at h
      exact absurd h (by simp)
    · rw [voiceLoop_stop [] parts0 silence hs] at h
      obtain ⟨h1, h2, h3⟩ := by simpa using h
      subst h1; subst h2; subst h3
      simp
  | cons e rest ih =>
    intro parts0 silence parts calls trace h
    by_cases hs : silence < m
    · cases he : truthyText e with
      | some t =>
        rw [voiceLoop_cons_rec e rest parts0 silence hs t he] at h
        obtain ⟨r, hr⟩ := voiceLoop_ok (m := m) rest (parts0 ++ [t]) 0
        rw [hr] at h
        cases r with
        | none => simp [Except.map] at h
        | some r' =>
          obtain ⟨p', c', tr'⟩ := r'
          simp only [Except.map, Option.map, Except.ok.injEq, Option.some.injEq,
            Prod.mk.injEq] at h
          obtain ⟨h1, h2, h3⟩ := h
          subst h1; subst h2; subst h3
          obtain ⟨ih1, ih2, ih3⟩ := ih _ _ _ _ _ hr
          refine ⟨?_, ?_, ?_⟩
          · rw [ih1]
            simp [List.filterMap_cons, he]
          · simp [ih2]
          · intro st hst
            rcases List.mem_cons.mp hst with h | h
            · subst h; simp
            · exact ih3 st h
      | none =>
        rw [voiceLoop_cons_none e rest parts0 silence hs he] at h
        obtain ⟨r, hr⟩ := voiceLoop_ok (m := m) rest parts0 (silence + 1)
        rw [hr] at h
        cases r with
        | none => simp [Except.map] at h
        | some r' =>
          obtain ⟨p', c', tr'⟩ := r'
          simp only [Except.map, Option.map, Except.ok.injEq, Option.some.injEq,
            Prod.mk.injEq] at h
          obtain ⟨h1, h2, h3⟩ := h
          subst h1; subst h2; subst h3
          obtain ⟨ih1, ih2, ih3⟩ := ih _ _ _ _ _ hr
          refine ⟨?_, ?_, ?_⟩
          · rw [ih1]
            simp [List.filterMap_cons, he]
          · simp [ih2]
          · intro st hst
            rcases List.mem_cons.mp hst with h | h
            · subst h
              simp [Nat.beq_eq_true_eq]
            · exact ih3 st h
    · rw [voiceLoop_stop _ parts0 silence hs] at h
      obtain ⟨h1, h2, h3⟩ := by simpa using h
      subst h1; subst h2; subst h3
      simp

lemma voiceLoop_all_silent {m : Nat} :
    ∀ (events : List ListenEvent) (parts0 : List String) (silence : Nat),
      (∀ e ∈ events, truthyText e = none) →
      m - silence ≤ events.length →
      ∃ trace, voiceLoop m events parts0 silence
        = .ok (some (parts0, m - silence, trace)) := by
  intro events
  induction events with
  | nil =>
    intro parts0 silence _ hlen
    have hms : m - silence = 0 := Nat.le_antisymm (by simpa using hlen) (Nat.zero_le _)
    rw [hms]
    exact ⟨[], voiceLoop_stop [] parts0 silence (by omega)⟩
  | cons e rest ih =>
    intro parts0 silence hall hlen
    by_cases hs : silence < m
    · have he : truthyText e = none := hall e (List.mem_cons_self e rest)
      obtain ⟨tr, htr⟩ := ih parts0 (silence + 1)
        (fun x hx => hall x (List.mem_cons_of_mem e hx)) (by simp at hlen ⊢; omega)
      refine ⟨(⟨e, silence + 1, silence + 1 == 1⟩ : VoiceStep) :: tr, ?_⟩
      rw [voiceLoop_cons_none e rest parts0 silence hs he, htr]
      simp only [Except.map, Option.map]
      have harith : m - (silence + 1) + 1 = m - silence := by omega
      rw [harith]
    · have hms : m - silence = 0 := by omega
      rw [hms]
      exact ⟨[], voiceLoop_stop _ parts0 silence hs⟩

lemma truthyText_eq_none_of_recognizedText (e : ListenEvent)
    (h : recognizedText e = none) : truthyText e = none := by
  cases e <;> simp_all [recognizedText, truthyText]

/-! ### Claim theorems: voice answer collection -/

/-- C2 counterexample: on [Recognized "", Unrecognized, Unrecognized] a text
is recognized on the first listen() call, yet `if user_input:` (line 122)
treats the empty string as falsy: nothing is appended, the counter is never
reset, and the loop stops after 3 calls with the fallback.  Under the
claim's law (each recognized text appended, counter reset to 0) this run
would have non-empty parts and would still be looping at call 3. -/
theorem voice_empty_recognition_counterexample :
    recognizedText (ListenEvent.Recognized "") = some "" ∧
    voiceCalls [ListenEvent.Recognized "", ListenEvent.Unrecognized,
      ListenEvent.Unrecognized] = some 3 ∧
    get_user_answer_voice [ListenEvent.Recognized "", ListenEvent.Unrecognized,
      ListenEvent.Unrecognized] = .ok (some "No answer provided.") :=
  ⟨by rfl, by rfl, by rfl⟩

/-- C2 (amended): the voice strategy appends each recognized non-empty text
to the accumulated parts (in arrival order) and resets the silence counter;
a recognized empty string is falsy under Python's `if user_input:` and takes
the silence path like a non-recognition; the result joins the parts with
single spaces; on the scripted sequence Recognized "a", Unrecognized,
Recognized "b", then three Unrecognized, the result is "a b" after exactly
6 listen() calls. -/
theorem voice_answer_accumulation :
    get_user_answer_voice [ListenEvent.Recognized "a", ListenEvent.Unrecognized,
        ListenEvent.Recognized "b", ListenEvent.Unrecognized,
        ListenEvent.Unrecognized, ListenEvent.Unrecognized]
      = .ok (some "a b") ∧
    voiceCalls [ListenEvent.Recognized "a", ListenEvent.Unrecognized,
        ListenEvent.Recognized "b", ListenEvent.Unrecognized,
        ListenEvent.Unrecognized, ListenEvent.Unrecognized] = some 6 ∧
    ∀ (events : List ListenEvent) (parts : List String) (calls : Nat)
      (trace : List VoiceStep),
      voiceLoop 3 events [] 0 = .ok (some (parts, calls, trace)) →
      parts = (events.take calls).filterMap truthyText ∧
      get_user_answer_voice events
        = .ok (some (if parts ≠ [] then pyJoin " " parts
                     else "No answer provided.")) := by
  refine ⟨by rfl, by rfl, ?_⟩
  intro events parts calls trace h
  obtain ⟨h1, _, _⟩ := voiceLoop_some_spec events [] 0 parts calls trace h
  refine ⟨by simpa using h1, ?_⟩
  rw [get_user_answer_voice, h]
  rfl

/-- Witness for C2 at the scripted six-event input. -/
theorem voice_answer_accumulation_witness :
    (["a", "b"] : List String)
      = (([ListenEvent.Recognized "a", ListenEvent.Unrecognized,
          ListenEvent.Recognized "b", ListenEvent.Unrecognized,
          ListenEvent.Unrecognized, ListenEvent.Unrecognized].take 6).filterMap
            truthyText) ∧
    get_user_answer_voice [ListenEvent.Recognized "a", ListenEvent.Unrecognized,
        ListenEvent.Recognized "b", ListenEvent.Unrecognized,
        ListenEvent.Unrecognized, ListenEvent.Unrecognized]
      = .ok (some (if (["a", "b"] : List String) ≠ [] then pyJoin " " ["a", "b"]
                   else "No answer provided.")) :=
  voice_answer_accumulation.2.2
    [ListenEvent.Recognized "a", ListenEvent.Unrecognized,
      ListenEvent.Recognized "b", ListenEvent.Unrecognized,
      ListenEvent.Unrecognized, ListenEvent.Unrecognized]
    ["a", "b"] 6
    [⟨ListenEvent.Recognized "a", 0, false⟩, ⟨ListenEvent.Unrecognized, 1, true⟩,
      ⟨ListenEvent.Recognized "b", 0, false⟩, ⟨ListenEvent.Unrecognized, 1, true⟩,
      ⟨ListenEvent.Unrecognized, 2, false⟩, ⟨ListenEvent.Unrecognized, 3, false⟩]
    (by rfl)

/-- C3: when no text is ever recognized (every call returns Unrecognized or
ServiceError), the voice strategy stops after exactly 3 listen() calls and
returns the literal fallback string; in general the fallback branch is taken
exactly when the accumulated parts are empty, which happens exactly when no
consumed event contributed a (truthy, i.e. non-empty) recognized text. -/
theorem voice_silence_threshold :
    (∀ events : List ListenEvent, (∀ e ∈ events, recognizedText e = none) →
        3 ≤ events.length →
        voiceCalls events = some 3 ∧
        get_user_answer_voice events = .ok (some "No answer provided.")) ∧
    (∀ (events : List ListenEvent) (parts : List String) (calls : Nat)
        (trace : List VoiceStep),
        voiceLoop 3 events [] 0 = .ok (some (parts, calls, trace)) →
        (parts = [] ↔ ∀ e ∈ events.take calls, truthyText e = none) ∧
        (parts = [] →
          get_user_answer_voice events = .ok (some "No answer provided.")) ∧
        (parts ≠ [] →
          get_user_answer_voice events = .ok (some (pyJoin " " parts)))) := by
  constructor
  · intro events hall hlen
    obtain ⟨trace, htr⟩ := voiceLoop_all_silent events [] 0
      (fun e he => truthyText_eq_none_of_recognizedText e (hall e he))
      (by simpa using hlen)
    norm_num at htr
    constructor
    · rw [voiceCalls, htr]
    · rw [get_user_answer_voice, htr]
      rfl
  · intro events parts calls trace h
    obtain ⟨h1, _, _⟩ := voiceLoop_some_spec events [] 0 parts calls trace h
    simp only [List.nil_append] at h1
    refine ⟨?_, ?_, ?_⟩
    · rw [h1]
      exact List.filterMap_eq_nil_iff
    · intro hp
      rw [get_user_answer_voice, h]
      simp [Except.map, hp]
    · intro hp
      rw [get_user_answer_voice, h]
      simp [Except.map, hp]

/-- Witness for C3 at three ServiceError events and at one recognized
event followed by three Unrecognized. -/
theorem voice_silence_threshold_witness :
    (voiceCalls [ListenEvent.ServiceError, ListenEvent.ServiceError,
        ListenEvent.ServiceError] = some 3 ∧
      get_user_answer_voice [ListenEvent.ServiceError, ListenEvent.ServiceError,
        ListenEvent.ServiceError] = .ok (some "No answer provided.")) ∧
    get_user_answer_voice [ListenEvent.Recognized "hi", ListenEvent.Unrecognized,
        ListenEvent.Unrecognized, ListenEvent.Unrecognized]
      = .ok (some (pyJoin " " ["hi"])) := by
  constructor
  · exact voice_silence_threshold.1
      [ListenEvent.ServiceError, ListenEvent.ServiceError, ListenEvent.ServiceError]
      (by decide) (by decide)
  · exact (voice_silence_threshold.2
      [ListenEvent.Recognized "hi", ListenEvent.Unrecognized,
        ListenEvent.Unrecognized, ListenEvent.Unrecognized]
      ["hi"] 4
      [⟨ListenEvent.Recognized "hi", 0, false⟩, ⟨ListenEvent.Unrecognized, 1, true⟩,
        ⟨ListenEvent.Unrecognized, 2, false⟩, ⟨ListenEvent.Unrecognized, 3, false⟩]
      (by rfl)).2.2 (by simp)

/-- C4: every Unrecognized or ServiceError event is caught inside listen and
degrades to the silence-counting path — no error ever escapes to the caller
of the voice strategy — and the spoken confirmation prompt is emitted at an
iteration exactly when the silence counter reaches exactly 1 there. -/
theorem voice_error_handling :
    (∀ e : ListenEvent, listen e = .ok (recognizedText e)) ∧
    (∀ (events : List ListenEvent) (parts : List String) (silence : Nat),
        ∃ r, voiceLoop 3 events parts silence = .ok r) ∧
    (∀ events : List ListenEvent, ∃ r, get_user_answer_voice events = .ok r) ∧
    (∀ (events : List ListenEvent) (parts : List String) (calls : Nat)
        (trace : List VoiceStep) (st : VoiceStep),
        voiceLoop 3 events [] 0 = .ok (some (parts, calls, trace)) →
        st ∈ trace → (st.prompted = true ↔ st.silenceAfter = 1)) := by
  refine ⟨listen_eq, fun events parts silence => voiceLoop_ok events parts silence,
    ?_, ?_⟩
  · intro events
    obtain ⟨r, hr⟩ := voiceLoop_ok (m := 3) events [] 0
    exact ⟨_, by rw [get_user_answer_voice, hr]; rfl⟩
  · intro events parts calls trace st h hst
    exact (voiceLoop_some_spec events [] 0 parts calls trace h).2.2 st hst

/-- Witness for C4: a ServiceError-headed script is fully handled, and the
first silence of the run is the one (and only) prompted step. -/
theorem voice_error_handling_witness :
    listen ListenEvent.ServiceError = .ok (recognizedText ListenEvent.ServiceError) ∧
    (∃ r, get_user_answer_voice [ListenEvent.ServiceError, ListenEvent.Unrecognized,
        ListenEvent.Unrecognized] = .ok r) ∧
    ((⟨ListenEvent.ServiceError, 1, true⟩ : VoiceStep).prompted = true ↔
      (⟨ListenEvent.ServiceError, 1, true⟩ : VoiceStep).silenceAfter = 1) := by
  refine ⟨voice_error_handling.1 ListenEvent.ServiceError,
    voice_error_handling.2.2.1
      [ListenEvent.ServiceError, ListenEvent.Unrecognized, ListenEvent.Unrecognized],
    voice_error_handling.2.2.2
      [ListenEvent.ServiceError, ListenEvent.Unrecognized, ListenEvent.Unrecognized]
      [] 3
      [⟨ListenEvent.ServiceError, 1, true⟩, ⟨ListenEvent.Unrecognized, 2, false⟩,
        ⟨ListenEvent.Unrecognized, 3, false⟩]
      ⟨ListenEvent.ServiceError, 1, true⟩ (by rfl) (by simp)⟩

/-! ### Lemmas about the text-collection loop -/

lemma textLoop_content :
    ∀ (lines : List String) (acc : List String), acc ≠ [] →
      textLoop lines acc =
        if lines.any isBlankLine then
          some (acc ++ lines.takeWhile (fun l => !isBlankLine l))
        else none := by
  intro lines
  induction lines with
  | nil => intro acc _; simp [textLoop]
  | cons l rest ih =>
    intro acc hacc
    by_cases hb : isBlankLine l
    · have hb' : pyStrip l = "" := by simpa [isBlankLine] using hb
      simp [textLoop, hb', hacc, hb]
    · have hb' : ¬ pyStrip l = "" := by simpa [isBlankLine] using hb
      have h1 : textLoop (l :: rest) acc = textLoop rest (acc ++ [l]) := by
        simp [textLoop, hb']
      rw [h1, ih (acc ++ [l]) (by simp)]
      simp [hb, List.takeWhile_cons]

lemma get_user_answer_text_eq_spec :
    ∀ lines, get_user_answer_text lines = collect_text_answer_spec lines := by
  intro lines
  induction lines with
  | nil => rfl
  | cons l rest ih =>
    by_cases hb : isBlankLine l
    · have hb' : pyStrip l = "" := by simpa [isBlankLine] using hb
      have h1 : textLoop (l :: rest) [] = textLoop rest [] := by
        simp [textLoop, hb']
      have h2 : collect_text_answer_spec (l :: rest) = collect_text_answer_spec rest := by
        simp [collect_text_answer_spec, hb]
      rw [get_user_answer_text, h1, h2]
      exact ih
    · have hb' : ¬ pyStrip l = "" := by simpa [isBlankLine] using hb
      have h1 : textLoop (l :: rest) [] = textLoop rest [l] := by
        simp [textLoop, hb']
      rw [get_user_answer_text, h1, textLoop_content rest [l] (by simp)]
      by_cases ha : rest.any isBlankLine <;>
        simp [collect_text_answer_spec, ha, hb, List.takeWhile_cons]

lemma any_blank_after_content_iff :
    ∀ lines : List String,
      ((lines.dropWhile isBlankLine).any isBlankLine = true) ↔
        ∃ pre x mid y post, lines = pre ++ x :: mid ++ y :: post ∧
          isBlankLine x = false ∧ isBlankLine y = true := by
  have hback : ∀ (pre : List String) (x : String) (mid : List String) (y : String)
      (post : List String), isBlankLine x = false → isBlankLine y = true →
      (((pre ++ x :: mid ++ y :: post).dropWhile isBlankLine).any isBlankLine = true) := by
    intro pre
    induction pre with
    | nil =>
      intro x mid y post hx hy
      have hx' : ¬ isBlankLine x = true := by simp [hx]
      rw [List.nil_append, List.cons_append, List.dropWhile_cons_of_neg hx']
      exact List.any_eq_true.mpr ⟨y, by simp, hy⟩
    | cons p pre' ih =>
      intro x mid y post hx hy
      by_cases hp : isBlankLine p
      · simpa [List.dropWhile_cons_of_pos hp] using ih x mid y post hx hy
      · simp only [List.cons_append, List.dropWhile_cons_of_neg hp]
        exact List.any_eq_true.mpr ⟨y, by simp, hy⟩
  intro lines
  constructor
  · induction lines with
    | nil => simp
    | cons l rest ih =>
      intro h
      by_cases hb : isBlankLine l
      · rw [List.dropWhile_cons_of_pos hb] at h
        obtain ⟨pre, x, mid, y, post, hres, hx, hy⟩ := ih h
        exact ⟨l :: pre, x, mid, y, post, by simp [hres], hx, hy⟩
      · rw [List.dropWhile_cons_of_neg hb] at h
        have hany : rest.any isBlankLine = true := by
          rcases List.any_eq_true.mp h with ⟨z, hz, hzb⟩
          rcases List.mem_cons.mp hz with rfl | hz'
          · exact absurd hzb hb
          · exact List.any_eq_true.mpr ⟨z, hz', hzb⟩
        rcases List.any_eq_true.mp hany with ⟨y, hy, hyb⟩
        obtain ⟨s, t, hst⟩ := List.append_of_mem hy
        exact ⟨[], l, s, y, t, by simp [hst], by simpa using hb, hyb⟩
  · rintro ⟨pre, x, mid, y, post, rfl, hx, hy⟩
    exact hback pre x mid y post hx hy

lemma dropWhile_head_false {α : Type} {p : α → Bool} :
    ∀ {l : List α} {r : α} {t : List α}, l.dropWhile p = r :: t → p r = false := by
  intro l
  induction l with
  | nil => intro r t h; simp at h
  | cons a l ih =>
    intro r t h
    by_cases hp : p a
    · rw [List.dropWhile_cons_of_pos hp] at h
      exact ih h
    · rw [List.dropWhile_cons_of_neg hp] at h
      injection h with h1 _
      subst h1
      simpa using hp

lemma pyStrip_eq_empty_iff (s : String) :
    pyStrip s = "" ↔ ∀ c ∈ s.data, c.isWhitespace = true := by
  constructor
  · intro h c hc
    have hd : ((s.data.dropWhile Char.isWhitespace).reverse.dropWhile
        Char.isWhitespace).reverse = [] := congrArg String.data h
    rw [List.reverse_eq_nil_iff, List.dropWhile_eq_nil_iff] at hd
    have hsplit := List.takeWhile_append_dropWhile (p := Char.isWhitespace) (l := s.data)
    rw [← hsplit] at hc
    rcases List.mem_append.mp hc with h1 | h2
    · exact List.mem_takeWhile_imp h1
    · exact hd c (List.mem_reverse.mpr h2)
  · intro h
    have h1 : s.data.dropWhile Char.isWhitespace = [] :=
      List.dropWhile_eq_nil_iff.mpr h
    simp only [pyStrip, h1]
    rfl

lemma exists_nonwhite_of_not_blank (l : String) (h : isBlankLine l = false) :
    ∃ c ∈ l.data, c.isWhitespace = false := by
  by_contra hcon
  push_neg at hcon
  have hall : ∀ c ∈ l.data, c.isWhitespace = true := by
    intro c hc
    have := hcon c hc
    simpa using this
  have : pyStrip l = "" := (pyStrip_eq_empty_iff l).mpr hall
  simp [isBlankLine, this] at h

lemma pyJoin_cons_data (sep a : String) (t : List String) :
    ∃ u, (pyJoin sep (a :: t)).data = a.data ++ u := by
  cases t with
  | nil => exact ⟨[], by simp [pyJoin]⟩
  | cons b bs => exact ⟨(sep ++ pyJoin sep (b :: bs)).data, by simp [pyJoin]⟩

/-! ### Claim theorems: text answer collection -/

/-- C5: the text strategy ignores blank lines before the first non-blank
line, stops at the first blank line after content, and joins the collected
non-blank lines with newlines in entry order; on the scripted input
`["", "hello", "world", ""]` it returns `"hello\nworld"`. -/
theorem text_answer_joins_lines :
    (∀ lines, get_user_answer_text lines = collect_text_answer_spec lines) ∧
    get_user_answer_text ["", "hello", "world", ""] = some "hello\nworld" :=
  ⟨get_user_answer_text_eq_spec, by rfl⟩

/-- C6: the text strategy returns exactly when some non-blank line is later
followed by a blank line; feeding only blank lines never returns; on
`["", "x", ""]` it returns `"x"`. -/
theorem text_answer_termination :
    (∀ lines : List String, ((get_user_answer_text lines).isSome = true ↔
        ∃ pre x mid y post, lines = pre ++ x :: mid ++ y :: post ∧
          isBlankLine x = false ∧ isBlankLine y = true)) ∧
    (∀ lines : List String, (∀ l ∈ lines, isBlankLine l = true) →
        get_user_answer_text lines = none) ∧
    get_user_answer_text ["", "x", ""] = some "x" := by
  refine ⟨?_, ?_, by rfl⟩
  · intro lines
    rw [get_user_answer_text_eq_spec]
    have hform : (collect_text_answer_spec lines).isSome
        = (lines.dropWhile isBlankLine).any isBlankLine := by
      simp only [collect_text_answer_spec]
      by_cases hc : (lines.dropWhile isBlankLine).any isBlankLine <;> simp [hc]
    rw [hform]
    exact any_blank_after_content_iff lines
  · intro lines hall
    rw [get_user_answer_text_eq_spec]
    have hdrop : lines.dropWhile isBlankLine = [] :=
      List.dropWhile_eq_nil_iff.mpr hall
    simp [collect_text_answer_spec, hdrop]

/-- Witness for C6: an all-blank script does not return. -/
theorem text_answer_termination_witness :
    get_user_answer_text ["", "  "] = none :=
  text_answer_termination.2.1 ["", "  "] (by decide)

/-- C10: whenever the text strategy returns, the result contains a
non-whitespace character (it is never empty or whitespace-only); blankness
is judged after stripping, and accepted lines are kept verbatim, whitespace
included. -/
theorem text_answer_nonblank_result :
    (∀ (lines : List String) (s : String), get_user_answer_text lines = some s →
        (∃ c ∈ s.data, c.isWhitespace = false) ∧ pyStrip s ≠ "") ∧
    get_user_answer_text ["  ", " a ", "\t"] = some " a " ∧
    get_user_answer_text ["x ", " y", ""] = some "x \n y" := by
  refine ⟨?_, by rfl, by rfl⟩
  intro lines s h
  rw [get_user_answer_text_eq_spec] at h
  simp only [collect_text_answer_spec] at h
  by_cases hc : (lines.dropWhile isBlankLine).any isBlankLine
  · rw [if_pos hc] at h
    cases hrest : lines.dropWhile isBlankLine with
    | nil => rw [hrest] at hc; simp at hc
    | cons r rest' =>
      have hhead : isBlankLine r = false := dropWhile_head_false hrest
      rw [hrest] at h
      rw [List.takeWhile_cons_of_pos (by simp [hhead])] at h
      have hs : pyJoin "\n" (r :: rest'.takeWhile (fun l => !isBlankLine l)) = s :=
        Option.some.inj h
      obtain ⟨u, hu⟩ := pyJoin_cons_data "\n" r (rest'.takeWhile (fun l => !isBlankLine l))
      obtain ⟨c, hc1, hc2⟩ := exists_nonwhite_of_not_blank r hhead
      have hcs : c ∈ s.data := by
        rw [← hs, hu]
        exact List.mem_append.mpr (Or.inl hc1)
      refine ⟨⟨c, hcs, hc2⟩, ?_⟩
      intro heq
      have := (pyStrip_eq_empty_iff s).mp heq c hcs
      rw [this] at hc2
      simp at hc2
  · rw [if_neg hc] at h
    exact absurd h (by simp)

/-- Witness for C10 at a single padded content line. -/
theorem text_answer_nonblank_result_witness :
    (∃ c ∈ (" a " : String).data, c.isWhitespace = false) ∧ pyStrip " a " ≠ "" :=
  text_answer_nonblank_result.1 ["  ", " a ", "\t"] " a " (by rfl)

/-! ### Lemmas about the session round loop -/

lemma runRound_question_number (llm : String → String) (topic : String) :
    ∀ (k : Nat) (s : SessionState),
      (runRound llm topic k s).question_number = s.question_number + k := by
  intro k
  induction k with
  | zero => intro s; rfl
  | succ k ih =>
    intro s
    have : runRound llm topic (k + 1) s
        = runRound llm topic k (questionStep llm topic s) := rfl
    rw [this, ih]
    simp [questionStep]
    omega

lemma runRound_previous_questions (llm : String → String) (topic : String) :
    ∀ (k : Nat) (s : SessionState),
      (runRound llm topic k s).previous_questions
        = s.previous_questions ++ roundQuestions llm topic k s := by
  intro k
  induction k with
  | zero => intro s; simp [runRound, roundQuestions]
  | succ k ih =>
    intro s
    have h0 : runRound llm topic (k + 1) s
        = runRound llm topic k (questionStep llm topic s) := rfl
    rw [h0, ih]
    simp [roundQuestions, questionStep]

lemma roundQuestions_length (llm : String → String) (topic : String) :
    ∀ (k : Nat) (s : SessionState),
      (roundQuestions llm topic k s).length = k := by
  intro k
  induction k with
  | zero => intro s; rfl
  | succ k ih => intro s; simp [roundQuestions, ih]

lemma roundNumbers_range' (llm : String → String) (topic : String) :
    ∀ (k : Nat) (s : SessionState),
      roundNumbers llm topic k s = List.range' s.question_number k := by
  intro k
  induction k with
  | zero => intro s; rfl
  | succ k ih =>
    intro s
    rw [List.range'_succ]
    simp only [roundNumbers, ih, questionStep]

lemma chain'_range'_add_one : ∀ (k n : Nat),
    (List.range' n k).Chain' (fun a b => b = a + 1) := by
  intro k
  induction k with
  | zero => intro n; simp
  | succ k ih =>
    intro n
    rw [List.range'_succ]
    cases k with
    | zero => simp
    | succ k' =>
      rw [List.range'_succ]
      refine List.chain'_cons.mpr ⟨rfl, ?_⟩
      rw [← List.range'_succ]
      exact ih (n + 1)

/-! ### Claim theorem: round counting and question numbering -/

/-- C1: a round of size k started at question number n with m previous
questions ends with question number n + k and exactly the k newly generated
questions appended in generation order; the numbers used in this round are
n, n+1, ..., n+k-1, any following round of size k' uses n+k, ..., n+k+k'-1,
and the combined number sequence increases strictly by 1 with no reuse. -/
theorem session_round_invariant (llm : String → String) (topic : String)
    (k k' n : Nat) (prevs : List String) :
    (runRound llm topic k ⟨n, prevs⟩).question_number = n + k ∧
    (runRound llm topic k ⟨n, prevs⟩).previous_questions
      = prevs ++ roundQuestions llm topic k ⟨n, prevs⟩ ∧
    (roundQuestions llm topic k ⟨n, prevs⟩).length = k ∧
    ((runRound llm topic k ⟨n, prevs⟩).previous_questions).length
      = prevs.length + k ∧
    roundNumbers llm topic k ⟨n, prevs⟩ = List.range' n k ∧
    roundNumbers llm topic k' (runRound llm topic k ⟨n, prevs⟩)
      = List.range' (n + k) k' ∧
    (roundNumbers llm topic k ⟨n, prevs⟩
        ++ roundNumbers llm topic k' (runRound llm topic k ⟨n, prevs⟩)).Chain'
      (fun a b => b = a + 1) ∧
    (roundNumbers llm topic k ⟨n, prevs⟩
        ++ roundNumbers llm topic k' (runRound llm topic k ⟨n, prevs⟩)).Nodup := by
  have h1 := runRound_question_number llm topic k ⟨n, prevs⟩
  have h5 := roundNumbers_range' llm topic k ⟨n, prevs⟩
  have h6 : roundNumbers llm topic k' (runRound llm topic k ⟨n, prevs⟩)
      = List.range' (n + k) k' := by
    rw [roundNumbers_range', h1]
  have happ : roundNumbers llm topic k ⟨n, prevs⟩
      ++ roundNumbers llm topic k' (runRound llm topic k ⟨n, prevs⟩)
      = List.range' n (k' + k) := by
    rw [h5, h6]
    exact List.range'_append_1 n k k'
  refine ⟨h1, runRound_previous_questions llm topic k ⟨n, prevs⟩,
    roundQuestions_length llm topic k ⟨n, prevs⟩, ?_, h5, h6, ?_, ?_⟩
  · rw [runRound_previous_questions]
    simp [roundQuestions_length]
  · rw [happ]
    exact chain'_range'_add_one (k' + k) n
  · rw [happ]
    exact List.nodup_range' _ _

/-! ### Claim theorems: prompt rendering -/

set_option maxRecDepth 100000 in
/-- C7 counterexample: the prompt actually sent still contains bullet lines
when previous_questions is empty (the template body's own four), and with
previous_questions = ["Q1", "Q2"] neither "- Q1" nor "- Q2" is ever a
separate line of the sent prompt: every placeholder receives str() of the
whole input dict, so the block appears escaped inside single repr lines. -/
theorem question_prompt_lines_counterexample :
    (promptLines (question_chain_prompt "Software Engineering" 1 [])).any
      isBulletLine = true ∧
    "- Q1" ∉ promptLines (question_chain_prompt "Software Engineering" 3
      ["Q1", "Q2"]) ∧
    "- Q2" ∉ promptLines (question_chain_prompt "Software Engineering" 3
      ["Q1", "Q2"]) :=
  ⟨by decide, by decide, by decide⟩

set_option maxRecDepth 100000 in
/-- C7 (amended): the sent prompt substitutes str() of the entire input dict
for every placeholder, so job_topic, the question number and the "None yet."
marker appear only inside the dict repr; the only bullet lines of the sent
prompt are the template's four fixed instruction bullets, with empty
previous_questions and with ["Q1", "Q2"] alike; the line-179 block itself
does have "- Q1" and "- Q2" as separate lines in that order, and in the
sent prompt they occur only with an escaped newline inside the repr; the
per-field rendering in which they are separate prompt lines is the
spec-described renderer, which differs from what is sent. -/
theorem question_chain_prompt_formatting :
    formatPreviousQuestions [] = "None yet." ∧
    promptLines (formatPreviousQuestions ["Q1", "Q2"]) = ["- Q1", "- Q2"] ∧
    containsSubstr (question_chain_prompt "Software Engineering" 1 [])
      "None yet." = true ∧
    containsSubstr (question_chain_prompt "Software Engineering" 1 [])
      "Software Engineering" = true ∧
    containsSubstr (question_chain_prompt "Software Engineering" 3 ["Q1", "Q2"])
      "\x27question_number\x27: 3" = true ∧
    (promptLines (question_chain_prompt "Software Engineering" 1 [])).filter
        isBulletLine
      = ["- Technical and specific to the job topic",
         "- Similar to what might be asked in a real interview",
         "- Challenging but answerable",
         "- Clear and concise"] ∧
    (promptLines (question_chain_prompt "Software Engineering" 3
        ["Q1", "Q2"])).filter isBulletLine
      = ["- Technical and specific to the job topic",
         "- Similar to what might be asked in a real interview",
         "- Challenging but answerable",
         "- Clear and concise"] ∧
    containsSubstr (question_chain_prompt "Software Engineering" 3 ["Q1", "Q2"])
      "- Q1\\n- Q2" = true ∧
    (promptLines (render_question_prompt "Software Engineering" 3
        ["Q1", "Q2"])).filter isBulletLine
      = ["- Technical and specific to the job topic",
         "- Similar to what might be asked in a real interview",
         "- Challenging but answerable",
         "- Clear and concise", "- Q1", "- Q2"] ∧
    question_chain_prompt "Software Engineering" 3 ["Q1", "Q2"]
      ≠ render_question_prompt "Software Engineering" 3 ["Q1", "Q2"] :=
  ⟨by rfl, by rfl, by decide, by decide, by decide, by decide, by decide,
    by decide, by decide, by decide⟩

/-! ### Claim theorems: session configuration and continuation -/

/-- C8: the questions-per-round prompt re-asks on unparsable or non-positive
input and accepts the first positive integer, leaving the already-collected
job topic and voice-mode choice unchanged; on the script
["-1", "0", "abc", "5"] (after topic and voice answers) it yields 5. -/
theorem questions_per_round_validation :
    configure ["Software Engineering", "no", "-1", "0", "abc", "5"]
      = some ⟨"Software Engineering", false, 5⟩ ∧
    (∀ inputs : List String, askQuestionsPerRound inputs
        = inputs.findSome? (fun s => match pyInt s with
            | some q => if q > 0 then some q.toNat else none
            | none => none)) ∧
    (∀ (job_topic voice_preference : String) (rest : List String),
        configure (job_topic :: voice_preference :: rest)
          = (askQuestionsPerRound rest).map
              (fun q => ⟨job_topic, useVoiceChoice voice_preference, q⟩)) := by
  refine ⟨by decide, ?_, fun t v r => rfl⟩
  intro inputs
  induction inputs with
  | nil => rfl
  | cons s rest ih =>
    cases hp : pyInt s with
    | none => simp [askQuestionsPerRound, List.findSome?_cons, hp, ih]
    | some q =>
      by_cases hq : q > 0
      · simp [askQuestionsPerRound, List.findSome?_cons, hp, hq]
      · simp [askQuestionsPerRound, List.findSome?_cons, hp, hq, ih]

lemma sessionLoop_nil (llm : String → String) (topic : String) (k : Nat)
    (st : SessionState) : sessionLoop llm topic k [] st = none := rfl

lemma sessionLoop_cons (llm : String → String) (topic : String) (k : Nat)
    (c : String) (rest : List String) (st : SessionState) :
    sessionLoop llm topic k (c :: rest) st =
      if continueChoice c then
        (sessionLoop llm topic k rest (runRound llm topic k st)).map
          (fun r => (r.1, r.2 + 1))
      else some (runRound llm topic k st, 1) := rfl

lemma sessionLoop_rounds (llm : String → String) (topic : String) (k : Nat) :
    ∀ (conts : List String) (st : SessionState),
      (∃ c ∈ conts, continueChoice c = false) →
      sessionLoop llm topic k conts st
        = some ((runRound llm topic k)^[(conts.takeWhile continueChoice).length + 1] st,
            (conts.takeWhile continueChoice).length + 1) := by
  intro conts
  induction conts with
  | nil => intro st h; simp at h
  | cons c rest ih =>
    intro st h
    by_cases hc : continueChoice c
    · have hex : ∃ x ∈ rest, continueChoice x = false := by
        rcases h with ⟨x, hx, hxf⟩
        rcases List.mem_cons.mp hx with rfl | hx'
        · exact absurd hxf (by simp [hc])
        · exact ⟨x, hx', hxf⟩
      rw [sessionLoop_cons, if_pos hc, ih (runRound llm topic k st) hex]
      rw [List.takeWhile_cons_of_pos hc]
      simp only [List.length_cons]
      rw [← Function.iterate_succ_apply]
      simp [Nat.succ_eq_add_one]
    · rw [sessionLoop_cons, if_neg hc, List.takeWhile_cons_of_neg hc]
      simp

/-- C9: after each round the session runs another round exactly when the
continuation input matches "yes"/"y" case-insensitively; any other input
ends the loop with the closing announcement spoken and normal termination;
the voice-mode choice at configuration time uses the same rule. -/
theorem continuation_decision (llm : String → String) (topic : String) (k : Nat) :
    (∀ s : String, useVoiceChoice s = continueChoice s) ∧
    (∀ s : String, continueChoice s = true ↔ (pyLower s = "yes" ∨ pyLower s = "y")) ∧
    (∀ (conts : List String) (st : SessionState),
        (∀ c ∈ conts, continueChoice c = true) →
        sessionLoop llm topic k conts st = none) ∧
    (∀ (conts : List String) (st : SessionState),
        (∃ c ∈ conts, continueChoice c = false) →
        run_practice llm topic k conts st
          = some ((runRound llm topic k)^[(conts.takeWhile continueChoice).length + 1] st,
              (conts.takeWhile continueChoice).length + 1, closing_message)) := by
  refine ⟨fun s => rfl, ?_, ?_, ?_⟩
  · intro s
    simp [continueChoice, List.contains]
  · intro conts
    induction conts with
    | nil => intro st _; rfl
    | cons c rest ih =>
      intro st h
      rw [sessionLoop_cons, if_pos (h c (List.mem_cons_self c rest))]
      rw [ih (runRound llm topic k st) (fun x hx => h x (List.mem_cons_of_mem c hx))]
      rfl
  · intro conts st h
    rw [run_practice, sessionLoop_rounds llm topic k conts st h]
    rfl

/-- Witness for C9: a single "yes" answer exhausts the script without
terminating, a single "no" answer terminates after one round with the
closing message. -/
theorem continuation_decision_witness :
    sessionLoop (fun _ => "Q") "T" 1 ["yes"] ⟨1, []⟩ = none ∧
    run_practice (fun _ => "Q") "T" 1 ["no"] ⟨1, []⟩
      = some ((runRound (fun _ => "Q") "T" 1)^[(["no"].takeWhile continueChoice).length + 1]
            ⟨1, []⟩,
          (["no"].takeWhile continueChoice).length + 1, closing_message) :=
  ⟨(continuation_decision (fun _ => "Q") "T" 1).2.2.1 ["yes"] ⟨1, []⟩ (by decide),
    (continuation_decision (fun _ => "Q") "T" 1).2.2.2 ["no"] ⟨1, []⟩
      ⟨"no", by decide, by decide⟩⟩

end InterviewMate
